import Mathlib

/-!
Verification of the 75 Hard fitness tracker core (React application).

The definitions below are a shallow embedding of the state-bearing code of
the repository: the `useLocalStorage` hook (src/hooks/useLocalStorage.js)
and the domain operations of the `HardTracker` component (src/App.js):
`completeDay`, `addExercise`, `deleteExercise`, `addAllFromTemplate`, the
selected-weekday effect, the daySelect option labels, and the
"Reset All Progress" button.  Platform primitives (JSON.parse,
JSON.stringify, String.prototype.split, String.prototype.trim, Date.now,
Math.random, the localStorage medium) are modelled as explicit parameters
or small executable functions; the control flow of each embedded function
follows the JavaScript source line by line.
-/

namespace HardTracker

/-! ## Platform model: values, serialization, the durable medium -/

/-- A small model of JavaScript runtime values held in React state.
`circ` stands for a value that `JSON.stringify` cannot encode
(e.g. a structure with a circular reference), which makes
serialization failure representable. -/
inductive JSValue where
  | num (n : Int)
  | str (s : String)
  | circ
deriving DecidableEq

/-- Model of `JSON.stringify`: total on numbers and strings, fails on the
non-encodable value (in the browser this raises a `TypeError`, caught by
the hook's `try`/`catch`). -/
def stringifyModel : JSValue → Option String
  | .num n => some (toString n)
  | .str s => some s
  | .circ => none

/-- The durable medium: `window.localStorage`, a partial map from string
keys to serialized text.  `none` models an absent slot. -/
def Medium : Type := String → Option String

/-- State visible to one `useLocalStorage` binding: the in-memory mirror
(the React `storedValue` state), the durable medium, and a count of
`local-storage-update` events dispatched so far. -/
structure HookState where
  storedValue : JSValue
  medium : Medium
  updateEvents : Nat

/-! ## useLocalStorage (src/hooks/useLocalStorage.js) -/

/-- The `useState` initializer of `useLocalStorage` (lines 12-24):
`const item = window.localStorage.getItem(key);`
`return item ? JSON.parse(item) : initialValue;` with a `catch` that
returns `initialValue`.  `parse` is the `JSON.parse` primitive
(`none` = the parse throws).  The empty string is falsy in JavaScript,
so a stored `""` also yields `initialValue` without parsing.  The
initializer never writes, so the medium is returned unchanged. -/
def useLocalStorageInit (medium : Medium) (key : String) (initialValue : JSValue)
    (parse : String → Option JSValue) : JSValue × Medium :=
  match medium key with
  | none => (initialValue, medium)
  | some item =>
    if item = "" then (initialValue, medium)
    else
      match parse item with
      | some v => (v, medium)
      | none => (initialValue, medium)

/-- `setValue` of `useLocalStorage` (lines 28-46).  The argument may be a
literal replacement or an updater function of the previous value
(`value instanceof Function ? value(storedValue) : value`).  Inside the
`try` block the statements run in source order:
`setStoredValue(valueToStore)` (line 35) executes before
`window.localStorage.setItem(key, JSON.stringify(valueToStore))`
(line 38), so when `JSON.stringify` throws, the in-memory mirror has
already been replaced and only the durable write and the
`local-storage-update` dispatch (line 41) are skipped; the `catch`
merely logs. -/
def setValue (stringify : JSValue → Option String) (key : String)
    (value : JSValue ⊕ (JSValue → JSValue)) (s : HookState) : HookState :=
  let valueToStore := match value with
    | Sum.inl v => v
    | Sum.inr f => f s.storedValue
  match stringify valueToStore with
  | some text =>
    { storedValue := valueToStore
      medium := fun k => if k = key then some text else s.medium k
      updateEvents := s.updateEvents + 1 }
  | none =>
    { s with storedValue := valueToStore }

/-! ## ChallengeState (src/App.js lines 21-33, 79-92) -/

/-- The `todayTasks` slot: nine fixed boolean task flags (App.js 23-33). -/
structure TodayTasks where
  morningWorkout : Bool
  eveningWorkout : Bool
  diet : Bool
  water1 : Bool
  water2 : Bool
  water3 : Bool
  water4 : Bool
  progressPhoto : Bool
  reading : Bool
deriving DecidableEq

/-- Default task set: all nine flags false (App.js 23-33). -/
def initTasks : TodayTasks :=
  ⟨false, false, false, false, false, false, false, false, false⟩

/-- The three ChallengeState-owned slots: `currentDayNumber`,
`completedDays` (a JavaScript array of day numbers), `todayTasks`. -/
structure ChallengeState where
  currentDayNumber : Nat
  completedDays : List Nat
  tasks : TodayTasks
deriving DecidableEq

/-- Initial state: day 1, empty ledger, all tasks false
(the `useLocalStorage` defaults at App.js 21-33). -/
def initState : ChallengeState := ⟨1, [], initTasks⟩

/-- `completeDay` (App.js 87-92): when `currentDayNumber` is not yet in
`completedDays`, push it (`[...completedDays, currentDayNumber]`) and
increment `currentDayNumber`; otherwise do nothing. -/
def completeDay (s : ChallengeState) : ChallengeState :=
  if s.completedDays.contains s.currentDayNumber then s
  else
    { s with
      completedDays := s.completedDays ++ [s.currentDayNumber]
      currentDayNumber := s.currentDayNumber + 1 }

/-- The "Reset All Progress" button (App.js 890-896).  The `button`
element declares no `onClick` handler (unlike every other button in the
file), so activating it performs no state transition at all: the click
is the identity on the challenge state. -/
def resetAllProgressClick (s : ChallengeState) : ChallengeState := s

/-! ## WorkoutLog (src/App.js lines 40-47, 103-180) -/

/-- A logged exercise entry: the five draft fields plus the assigned id
(App.js 111-114). -/
structure Exercise where
  name : String
  weight : String
  sets : String
  reps : String
  notes : String
  id : String
deriving DecidableEq

/-- The `currentExercise` form draft (App.js 41-47): no id yet. -/
structure ExerciseDraft where
  name : String
  weight : String
  sets : String
  reps : String
  notes : String
deriving DecidableEq

/-- The blank draft the form is reset to (App.js 41-47 and 118-124). -/
def emptyDraft : ExerciseDraft := ⟨"", "", "", "", ""⟩

/-- The `workouts` slot: a JavaScript object mapping day keys to arrays
of entries (App.js 40); absent keys read as `undefined` (`none`). -/
def Workouts : Type := String → Option (List Exercise)

/-- JavaScript object spread update: `\x7b...obj, [key]: v\x7d` binds `key` to
`v` and keeps every other property. -/
def jsSpreadSet (w : Workouts) (key : String) (v : List Exercise) : Workouts :=
  fun k => if k = key then some v else w k

/-- Day key derivation: `` `day-$\x7bselectedDay\x7d` `` (App.js 106, 164). -/
def dayKeyFor (selectedDay : Nat) : String := "day-" ++ toString selectedDay

/-- `addExercise` (App.js 103-125).  No-op when the draft name is empty
(`if (!currentExercise.name) return`).  Otherwise appends the draft with
`id: Date.now().toString()` — the clock reading `now` is the only
component of the id — to the selected day's array and resets the form.
Returns the updated workouts map and form draft. -/
def addExercise (selectedDay : Nat) (now : Nat) (currentExercise : ExerciseDraft)
    (workouts : Workouts) : Workouts × ExerciseDraft :=
  if currentExercise.name = "" then (workouts, currentExercise)
  else
    let dayKey := dayKeyFor selectedDay
    let currentDayWorkouts := (workouts dayKey).getD []
    (jsSpreadSet workouts dayKey
      (currentDayWorkouts ++
        [⟨currentExercise.name, currentExercise.weight, currentExercise.sets,
          currentExercise.reps, currentExercise.notes, toString now⟩]),
     emptyDraft)

/-- `deleteExercise` (App.js 127-135): reads the day's array (defaulting
to `[]` for an absent key), keeps the entries whose id differs from
`exerciseId` (`filter(ex => ex.id !== exerciseId)`), and spreads the
result back under `dayKey`. -/
def deleteExercise (workouts : Workouts) (dayKey : String) (exerciseId : String) :
    Workouts :=
  let currentDayWorkouts := (workouts dayKey).getD []
  let updatedWorkouts := currentDayWorkouts.filter (fun ex => ex.id != exerciseId)
  jsSpreadSet workouts dayKey updatedWorkouts

/-- Character-list splitter underlying the model of
`String.prototype.split` with a one-character separator. -/
def splitChars (c : Char) : List Char → List (List Char)
  | [] => [[]]
  | a :: rest =>
    match splitChars c rest with
    | [] => [[]]
    | grp :: groups => if a = c then [] :: grp :: groups else (a :: grp) :: groups

/-- Model of `s.split('x')` for the JavaScript string `s`: the list of
maximal segments between occurrences of `'x'` (never empty; the whole
string when `'x'` does not occur). -/
def jsSplitX (s : String) : List String :=
  (splitChars 'x' s.data).map (fun cs => String.mk cs)

/-- Model of `String.prototype.trim`: strip whitespace from both ends. -/
def jsTrim (s : String) : String :=
  String.mk (((s.data.dropWhile Char.isWhitespace).reverse.dropWhile
    Char.isWhitespace).reverse)

/-- `ex.setsReps.split('x')[i]?.trim() || ''` (App.js 169-170): the `i`-th
segment trimmed, or the empty string when the segment is absent (the
optional chaining yields `undefined`, and `|| ''` maps both `undefined`
and a trimmed-empty segment to `''`). -/
def setsRepsPart (setsReps : String) (i : Nat) : String :=
  match (jsSplitX setsReps).get? i with
  | none => ""
  | some part => jsTrim part

/-- One template row of the read-only reference catalog
(src/data/workoutData.js): a name and a combined "sets x reps" text. -/
structure TemplateExercise where
  exercise : String
  setsReps : String
deriving DecidableEq

/-- The entry built from one template row (App.js 167-174).  `now` is the
`Date.now()` reading and `rand` the `Math.random().toString(36).substr(2, 9)`
suffix drawn for this row. -/
def templateEntry (now : Nat) (rand : String) (ex : TemplateExercise) : Exercise :=
  { name := ex.exercise
    sets := setsRepsPart ex.setsReps 0
    reps := setsRepsPart ex.setsReps 1
    weight := ""
    notes := ""
    id := "template-" ++ toString now ++ "-" ++ rand }

/-- `addAllFromTemplate` (App.js 161-180): no-op on a null/empty template
list; otherwise maps every template row to an entry (the row at position
`i` drawing the random suffix `rands i`) and appends the batch to the
selected day's array. -/
def addAllFromTemplate (selectedDay : Nat) (now : Nat) (rands : Nat → String)
    (exercises : List TemplateExercise) (workouts : Workouts) : Workouts :=
  if exercises.isEmpty then workouts
  else
    let dayKey := dayKeyFor selectedDay
    let currentDayWorkouts := (workouts dayKey).getD []
    let newExercises :=
      (exercises.zip (List.range exercises.length)).map
        (fun p => templateEntry now (rands p.2) p.1)
    jsSpreadSet workouts dayKey (currentDayWorkouts ++ newExercises)

/-! ## Weekday mapping (src/App.js lines 17, 69-76, 634-637) -/

/-- The `weekdays` constant (App.js 17). -/
def weekdays : List String :=
  ["Sunday", "Monday", "Tuesday", "Wednesday", "Thursday", "Friday", "Saturday"]

/-- JavaScript array indexing with a possibly negative or out-of-range
index: `xs[i]` is `undefined` (`none`) outside `0 ≤ i < xs.length`. -/
def jsArrayGet (xs : List String) (i : Int) : Option String :=
  if h : 0 ≤ i ∧ i.toNat < xs.length then some (xs.get ⟨i.toNat, h.2⟩) else none

/-- The selected-weekday effect (App.js 69-76):
`dayDifference = selectedDay - currentDayNumber`,
`newWeekdayIndex = (currentDay + dayDifference) % 7` (JavaScript `%` is
truncated remainder, `Int.tmod`), then
`adjustedIndex = newWeekdayIndex < 0 ? 7 + newWeekdayIndex : newWeekdayIndex`. -/
def selectedWeekdayIndex (currentDay currentDayNumber selectedDay : Int) : Int :=
  let dayDifference := selectedDay - currentDayNumber
  let newWeekdayIndex := Int.tmod (currentDay + dayDifference) 7
  if newWeekdayIndex < 0 then 7 + newWeekdayIndex else newWeekdayIndex

/-- The weekday name the effect stores in `selectedWeekday`. -/
def selectedWeekday (currentDay currentDayNumber selectedDay : Int) : Option String :=
  jsArrayGet weekdays (selectedWeekdayIndex currentDay currentDayNumber selectedDay)

/-- The daySelect option label (App.js 635):
`weekdays[(currentDay + (i+1) - currentDayNumber) % 7]` — the same offset
computation as the effect but with no adjustment of a negative remainder. -/
def daySelectWeekdayIndex (currentDay currentDayNumber n : Int) : Int :=
  Int.tmod (currentDay + n - currentDayNumber) 7

/-- The weekday name shown in the daySelect option for day `n`. -/
def daySelectWeekday (currentDay currentDayNumber n : Int) : Option String :=
  jsArrayGet weekdays (daySelectWeekdayIndex currentDay currentDayNumber n)

/-! ## Theorems -/

/-- Helper: `k` successful `completeDay` calls from the initial state land
exactly on day `k + 1` with ledger `[1, …, k]` and untouched tasks. -/
theorem completeDay_iterate (k : Nat) :
    completeDay^[k] initState = ⟨k + 1, List.range' 1 k, initTasks⟩ := by
  induction k with
  | zero => rfl
  | succ k ih =>
    rw [Function.iterate_succ_apply', ih]
    have hc : ((List.range' 1 k).contains (k + 1)) = false := by
      simp only [List.contains, List.elem_eq_mem, decide_eq_false_iff_not,
        List.mem_range'_1]
      omega
    have hr : List.range' 1 k ++ [k + 1] = List.range' 1 (k + 1) := by
      have h : List.range' 1 (k + 1) 1 = List.range' 1 k 1 ++ [1 + 1 * k] :=
        List.range'_concat 1 k
      simpa [Nat.add_comm] using h.symm
    simp [completeDay, hc, hr]
    omega

/-- C1: after `k` successful `completeDay()` calls from the initial state
(`currentDayNumber = 1`, `completedDays` empty) with no other mutation,
`currentDayNumber = k + 1` and `completedDays = [1, …, k]`; in particular
every such reachable state satisfies the invariant
`completedDays = [1, …, currentDayNumber − 1]` (contiguous, no gaps, no
duplicates). -/
theorem completeDay_iterate_spec (k : Nat) :
    (completeDay^[k] initState).currentDayNumber = k + 1 ∧
    (completeDay^[k] initState).completedDays = List.range' 1 k ∧
    (completeDay^[k] initState).completedDays =
      List.range' 1 ((completeDay^[k] initState).currentDayNumber - 1) := by
  rw [completeDay_iterate]
  exact ⟨rfl, rfl, rfl⟩

/-- C3: when `currentDayNumber` is already a member of `completedDays`,
`completeDay()` is a no-op — the day counter, the ledger and the daily
task set are all unchanged. -/
theorem completeDay_noop_of_already_completed (s : ChallengeState)
    (h : s.completedDays.contains s.currentDayNumber = true) :
    (completeDay s).currentDayNumber = s.currentDayNumber ∧
    (completeDay s).completedDays = s.completedDays ∧
    (completeDay s).tasks = s.tasks := by
  have hmem : s.currentDayNumber ∈ s.completedDays := by simpa using h
  simp [completeDay, hmem]

/-- Witness for C3 at the concrete state day 1 with `[1]` already recorded. -/
theorem completeDay_noop_witness :
    (([1] : List Nat).contains 1 = true) ∧
    ((completeDay ⟨1, [1], initTasks⟩).currentDayNumber = 1 ∧
     (completeDay ⟨1, [1], initTasks⟩).completedDays = [1] ∧
     (completeDay ⟨1, [1], initTasks⟩).tasks = initTasks) :=
  ⟨by decide, completeDay_noop_of_already_completed ⟨1, [1], initTasks⟩ (by decide)⟩

/-- C5 (code bug): clicking the "Reset All Progress" button changes
nothing — the button declares no `onClick` handler — so from the
non-default state day 3 with ledger `[1, 2]` the state stays exactly as
it was instead of being cleared to the defaults. -/
theorem resetAllProgress_button_noop :
    resetAllProgressClick ⟨3, [1, 2], initTasks⟩ = ⟨3, [1, 2], initTasks⟩ ∧
    (⟨3, [1, 2], initTasks⟩ : ChallengeState) ≠ initState :=
  ⟨rfl, by decide⟩

/-- C2 (counterexample): from mirror `num 1` over an empty medium, a
`set` of the non-serializable value leaves the medium untouched but
replaces the in-memory mirror — `setStoredValue` has already run when
`JSON.stringify` throws — so the mirror is NOT left unchanged and now
diverges from the durable medium. -/
theorem setValue_mirror_diverges_on_failure :
    (setValue stringifyModel "completedDays" (Sum.inl JSValue.circ)
        ⟨JSValue.num 1, fun _ => none, 0⟩).storedValue = JSValue.circ ∧
    JSValue.circ ≠ JSValue.num 1 ∧
    (setValue stringifyModel "completedDays" (Sum.inl JSValue.circ)
        ⟨JSValue.num 1, fun _ => none, 0⟩).medium "completedDays" = none :=
  ⟨rfl, by decide, rfl⟩

/-- C2 (amended): when serialization of the new value fails, the durable
medium and the notification count are left unchanged, but the in-memory
mirror has already been set to the new value, so the mirror can diverge
from the durable medium. -/
theorem setValue_serialization_failure (stringify : JSValue → Option String)
    (key : String) (v : JSValue) (s : HookState) (h : stringify v = none) :
    setValue stringify key (Sum.inl v) s = { s with storedValue := v } := by
  simp [setValue, h]

/-- Witness for the amended C2 at the model stringifier and the
non-serializable value. -/
theorem setValue_serialization_failure_witness :
    stringifyModel JSValue.circ = none ∧
    setValue stringifyModel "workouts" (Sum.inl JSValue.circ)
        ⟨JSValue.num 5, fun _ => none, 0⟩ =
      { storedValue := JSValue.circ, medium := fun _ => none, updateEvents := 0 } :=
  ⟨rfl, setValue_serialization_failure stringifyModel "workouts" JSValue.circ
      ⟨JSValue.num 5, fun _ => none, 0⟩ rfl⟩

/-- C9: reading a slot that is absent from the durable medium, or whose
content fails to deserialize, yields the caller's default and performs no
write — the medium comes back exactly as it was, so the default is never
written back. -/
theorem useLocalStorageInit_default_no_write (medium : Medium) (key : String)
    (initialValue : JSValue) (parse : String → Option JSValue)
    (h : ∀ item, medium key = some item → parse item = none) :
    useLocalStorageInit medium key initialValue parse = (initialValue, medium) := by
  unfold useLocalStorageInit
  cases hm : medium key with
  | none => rfl
  | some item =>
    by_cases hempty : item = ""
    · simp [hempty]
    · simp [hempty, h item hm]

/-- Witness for C9 on an empty medium: the slot is absent and the read
returns the default with the medium unchanged. -/
theorem useLocalStorageInit_default_witness :
    ((fun _ => none : Medium) "currentDayNumber" = none) ∧
    useLocalStorageInit (fun _ => none) "currentDayNumber" (JSValue.num 1)
        (fun _ => none) = (JSValue.num 1, fun _ => none) :=
  ⟨rfl, useLocalStorageInit_default_no_write (fun _ => none) "currentDayNumber"
      (JSValue.num 1) (fun _ => none) (fun _ h => Option.noConfusion h)⟩

/-- C4 (counterexample): two successful adds performed at the same clock
reading (`Date.now() = 1000` both times) receive the SAME identifier
`"1000"` — `addExercise` builds the id from the clock alone, with no
randomized suffix — so identifiers are not unique within the instance's
lifetime. -/
theorem addExercise_same_instant_id_collision :
    (((addExercise 1 1000 ⟨"Squat", "", "", "", ""⟩
          ((addExercise 1 1000 ⟨"Bench", "", "", "", ""⟩ (fun _ => none)).1)).1
        "day-1").map (fun l => l.map Exercise.id)) = some ["1000", "1000"] := by
  decide

/-- C4 (amended): a successful add with a non-empty name appends the new
entry at the end of the selected day's sequence with the identifier
`Date.now().toString()`; other day keys are untouched and the form is
reset.  Because the id is the clock reading alone, two adds in the same
instant share an identifier — ids are fresh only across distinct clock
readings. -/
theorem addExercise_appends_with_time_id (selectedDay now : Nat)
    (ce : ExerciseDraft) (w : Workouts) (h : ce.name ≠ "") :
    (addExercise selectedDay now ce w).1 (dayKeyFor selectedDay) =
      some ((w (dayKeyFor selectedDay)).getD [] ++
        [⟨ce.name, ce.weight, ce.sets, ce.reps, ce.notes, toString now⟩]) ∧
    (∀ k, k ≠ dayKeyFor selectedDay → (addExercise selectedDay now ce w).1 k = w k) ∧
    (addExercise selectedDay now ce w).2 = emptyDraft := by
  refine ⟨?_, ?_, ?_⟩
  · simp [addExercise, h, jsSpreadSet]
  · intro k hk
    simp [addExercise, h, jsSpreadSet, hk]
  · simp [addExercise, h]

/-- Witness for the amended C4: adding "Bench" at clock reading 99 to an
empty workouts map yields the single entry with id "99". -/
theorem addExercise_appends_witness :
    ("Bench" ≠ "") ∧
    (addExercise 2 99 ⟨"Bench", "135", "3", "8", "ok"⟩ (fun _ => none)).1
        (dayKeyFor 2) = some [⟨"Bench", "135", "3", "8", "ok", "99"⟩] :=
  ⟨by decide,
   (addExercise_appends_with_time_id 2 99 ⟨"Bench", "135", "3", "8", "ok"⟩
      (fun _ => none) (by decide)).1⟩

/-- A day with two entries sharing the id "7" — reachable, since
`addExercise` assigns equal ids to same-instant adds. -/
def dupIdWorkouts : Workouts := fun k =>
  if k = "day-1" then
    some [⟨"A", "", "", "", "", "7"⟩, ⟨"B", "", "", "", "", "7"⟩]
  else none

/-- C6 (counterexample): deleting id "7" from a day holding two entries
with that id removes BOTH — the entry count drops from 2 to 0, not by
exactly 1, although an entry with that id was present. -/
theorem deleteExercise_removes_all_matching :
    ((dupIdWorkouts "day-1").getD []).length = 2 ∧
    ((dupIdWorkouts "day-1").getD []).countP (fun ex => ex.id == "7") = 2 ∧
    (((deleteExercise dupIdWorkouts "day-1" "7") "day-1").getD []).length = 0 := by
  decide

/-- Helper: filtering out the matching ids drops exactly the number of
matches. -/
theorem length_filter_ne_add_countP (l : List Exercise) (exId : String) :
    (l.filter (fun ex => ex.id != exId)).length +
      l.countP (fun ex => ex.id == exId) = l.length := by
  induction l with
  | nil => rfl
  | cons a t ih =>
    by_cases hid : (a.id == exId) = true
    · have hne : (a.id != exId) = false := by simp [bne, hid]
      simp [List.filter_cons, List.countP_cons, hid, hne]
      omega
    · have hne : (a.id != exId) = true := by simp [bne, hid]
      simp [List.filter_cons, List.countP_cons, hid, hne]
      omega

/-- C6 (amended): `deleteExercise(dayKey, id)` removes every entry of
that day whose id matches, so the entry count drops by the number of
matching entries — by exactly 1 when exactly one entry carries the id,
and by 0 when none does. -/
theorem deleteExercise_count (w : Workouts) (dayKey exId : String) :
    (((deleteExercise w dayKey exId) dayKey).getD []).length +
      ((w dayKey).getD []).countP (fun ex => ex.id == exId) =
      ((w dayKey).getD []).length := by
  simp only [deleteExercise, jsSpreadSet, if_pos rfl, Option.getD_some]
  exact length_filter_ne_add_countP _ _

/-- C10: deleting from a day key that is absent from the workouts map is
not a pure no-op on the store — the spread write binds the day key to the
empty sequence, while every other day key keeps its previous binding. -/
theorem deleteExercise_absent_day (w : Workouts) (dayKey exId : String)
    (h : w dayKey = none) :
    (deleteExercise w dayKey exId) dayKey = some [] ∧
    ∀ k, k ≠ dayKey → (deleteExercise w dayKey exId) k = w k := by
  constructor
  · simp [deleteExercise, jsSpreadSet, h]
  · intro k hk
    simp [deleteExercise, jsSpreadSet, hk]

/-- Witness for C10 on the empty workouts map: after deleting from the
absent "day-9", that key is bound to `[]` and "day-2" is unchanged. -/
theorem deleteExercise_absent_day_witness :
    ((fun _ => none : Workouts) "day-9" = none) ∧
    (deleteExercise (fun _ => none) "day-9" "e1") "day-9" = some [] ∧
    (deleteExercise (fun _ => none) "day-9" "e1") "day-2" = none :=
  ⟨rfl, (deleteExercise_absent_day (fun _ => none) "day-9" "e1" rfl).1,
   (deleteExercise_absent_day (fun _ => none) "day-9" "e1" rfl).2 "day-2"
     (by decide)⟩

/-- C7 (counterexample): the template text "AMRAP" contains no `'x'`, so
the split yields the whole text as segment 0 — the produced entry has
`sets = "AMRAP"` (non-empty) and `reps = ""`, not empty strings for
both. -/
theorem addAllFromTemplate_unparseable_not_both_empty :
    ((addAllFromTemplate 1 5 (fun _ => "r0") [⟨"Run", "AMRAP"⟩] (fun _ => none))
        "day-1").map (fun l => l.map (fun e => (e.sets, e.reps))) =
      some [("AMRAP", "")] ∧
    ("AMRAP" : String) ≠ "" := by
  decide

/-- Helper: splitting on a character that does not occur leaves the whole
list as the single segment. -/
theorem splitChars_of_not_mem (c : Char) (cs : List Char) (h : c ∉ cs) :
    splitChars c cs = [cs] := by
  induction cs with
  | nil => rfl
  | cons a rest ih =>
    have hac : ¬ (a = c) := fun hh => h (hh ▸ List.mem_cons_self a rest)
    rw [splitChars, ih (fun hm => h (List.mem_cons_of_mem a hm))]
    simp [hac]

/-- Helper: a string without an `'x'` splits into itself alone. -/
theorem jsSplitX_of_not_mem (s : String) (h : ¬ ('x' ∈ s.data)) :
    jsSplitX s = [s] := by
  unfold jsSplitX
  rw [splitChars_of_not_mem 'x' s.data h]
  rfl

/-- Helper: the `i`-th element of the batch built by zipping the template
rows with their indices is the entry derived from the `i`-th row, drawing
the `(s + i)`-th random suffix when the index range starts at `s`. -/
theorem zip_range_map_get (now : Nat) (rands : Nat → String) :
    ∀ (exs : List TemplateExercise) (s i : Nat),
      ((exs.zip (List.range' s exs.length)).map
          (fun p => templateEntry now (rands p.2) p.1)).get? i
        = (exs.get? i).map (fun ex => templateEntry now (rands (s + i)) ex) := by
  intro exs
  induction exs with
  | nil => intro s i; rfl
  | cons a t ih =>
    intro s i
    have hr : List.range' s (t.length + 1) = s :: List.range' (s + 1) t.length := by
      simpa using List.range'_succ s t.length 1
    cases i with
    | zero =>
      simp [hr]
    | succ i =>
      have h2 := ih (s + 1) i
      simp only [show (s + 1) + i = s + (i + 1) from by omega] at h2
      simp only [List.length_cons, hr]
      simpa using h2

/-- C7 (amended): `addAllFromTemplate` appends exactly one entry per
template row to the day's sequence, in order — the entry at offset `i`
past the existing entries derives from row `i` — splitting each row's
combined text on `'x'`: a text without an `'x'` yields `sets` equal to
the whole trimmed text and `reps = ""` (rather than empty strings for
both), while "3 x 45 sec" yields `sets = "3"`, `reps = "45 sec"`; an
unparseable row never fails the batch. -/
theorem addAllFromTemplate_splits_batch (selectedDay now : Nat)
    (rands : Nat → String) (exercises : List TemplateExercise) (w : Workouts) :
    ((((addAllFromTemplate selectedDay now rands exercises w)
          (dayKeyFor selectedDay)).getD []).length
        = ((w (dayKeyFor selectedDay)).getD []).length + exercises.length) ∧
    (∀ i, (((addAllFromTemplate selectedDay now rands exercises w)
          (dayKeyFor selectedDay)).getD []).get?
            (((w (dayKeyFor selectedDay)).getD []).length + i)
        = (exercises.get? i).map (fun ex => templateEntry now (rands i) ex)) ∧
    (∀ r t, ¬ ('x' ∈ (TemplateExercise.setsReps t).data) →
        (templateEntry now r t).sets = jsTrim t.setsReps ∧
        (templateEntry now r t).reps = "") ∧
    ((templateEntry now (rands 0) ⟨"Plank", "3 x 45 sec"⟩).sets = "3" ∧
     (templateEntry now (rands 0) ⟨"Plank", "3 x 45 sec"⟩).reps = "45 sec") := by
  refine ⟨?_, ?_, ?_, rfl, rfl⟩
  · cases exercises with
    | nil => simp [addAllFromTemplate]
    | cons a t =>
      simp [addAllFromTemplate, jsSpreadSet, Nat.min_self]
  · intro i
    cases exercises with
    | nil =>
      simp [addAllFromTemplate]
    | cons a t =>
      have hne : (addAllFromTemplate selectedDay now rands (a :: t) w)
            (dayKeyFor selectedDay)
          = some ((w (dayKeyFor selectedDay)).getD [] ++
              (((a :: t).zip (List.range (a :: t).length)).map
                (fun p => templateEntry now (rands p.2) p.1))) := by
        simp [addAllFromTemplate, jsSpreadSet]
      rw [hne, Option.getD_some, List.get?_append_right (Nat.le_add_right _ _),
        Nat.add_sub_cancel_left]
      have key := zip_range_map_get now rands (a :: t) 0 i
      rw [← List.range_eq_range'] at key
      simpa using key
  · intro r t hx
    constructor <;>
      simp [templateEntry, setsRepsPart, jsSplitX_of_not_mem t.setsReps hx]

/-- Witness for the amended C7: the two-row batch Plank "3 x 45 sec" and
Run "AMRAP" on an empty workouts map yields exactly two entries, and the
non-`'x'` text "AMRAP" yields sets equal to the whole trimmed text with
empty reps. -/
theorem addAllFromTemplate_splits_batch_witness :
    (¬ ('x' ∈ ("AMRAP" : String).data)) ∧
    ((((addAllFromTemplate 1 5 (fun _ => "r")
          [⟨"Plank", "3 x 45 sec"⟩, ⟨"Run", "AMRAP"⟩] (fun _ => none))
        (dayKeyFor 1)).getD []).length = 0 + 2) ∧
    ((templateEntry 5 "r" ⟨"Run", "AMRAP"⟩).sets = jsTrim "AMRAP" ∧
     (templateEntry 5 "r" ⟨"Run", "AMRAP"⟩).reps = "") :=
  ⟨by decide,
   (addAllFromTemplate_splits_batch 1 5 (fun _ => "r")
      [⟨"Plank", "3 x 45 sec"⟩, ⟨"Run", "AMRAP"⟩] (fun _ => none)).1,
   (addAllFromTemplate_splits_batch 1 5 (fun _ => "r")
      [⟨"Plank", "3 x 45 sec"⟩, ⟨"Run", "AMRAP"⟩] (fun _ => none)).2.2.1
     "r" ⟨"Run", "AMRAP"⟩ (by decide)⟩

/-- Helper: the truncated remainder by 7 is above `-7`. -/
theorem tmod_seven_lower (a : Int) : -7 < Int.tmod a 7 := by
  cases a with
  | ofNat n =>
    have h : 0 ≤ Int.tmod (Int.ofNat n) 7 := Int.tmod_nonneg 7 (Int.ofNat_nonneg n)
    omega
  | negSucc m =>
    have h1 : Int.tmod (Int.negSucc m) 7 = -((m + 1) % 7 : Nat) := rfl
    have h2 : (m + 1) % 7 < 7 := Nat.mod_lt _ (by norm_num)
    omega

/-- Helper: the conditional `+ 7` adjustment of the JavaScript `%`
(truncated remainder) yields the mathematical (Euclidean) remainder. -/
theorem adjust_tmod_eq_emod (a : Int) :
    (if Int.tmod a 7 < 0 then 7 + Int.tmod a 7 else Int.tmod a 7) = a % 7 := by
  have hd := Int.tmod_add_tdiv a 7
  have hub : Int.tmod a 7 < 7 := Int.tmod_lt_of_pos a (by norm_num)
  have hlb := tmod_seven_lower a
  split <;> omega

/-- The adjusted index of the selected-weekday effect is the Euclidean
remainder of the offset, hence canonical. -/
theorem selectedWeekdayIndex_eq_emod (c d n : Int) :
    selectedWeekdayIndex c d n = (c + (n - d)) % 7 := by
  simp only [selectedWeekdayIndex]
  exact adjust_tmod_eq_emod _

/-- The selected-weekday effect is periodic with period 7 in the day
index. -/
theorem selectedWeekdayIndex_periodic (c d n : Int) :
    selectedWeekdayIndex c d (n + 7) = selectedWeekdayIndex c d n := by
  rw [selectedWeekdayIndex_eq_emod, selectedWeekdayIndex_eq_emod]
  omega

/-- At `n = currentDayNumber` the effect returns today's weekday index. -/
theorem selectedWeekdayIndex_current (c d : Int) (h0 : 0 ≤ c) (h7 : c < 7) :
    selectedWeekdayIndex c d d = c := by
  rw [selectedWeekdayIndex_eq_emod]
  omega

/-- The effect's adjusted index is always in range, so the effect always
produces a weekday name. -/
theorem selectedWeekday_isSome (c d n : Int) :
    (selectedWeekday c d n).isSome = true := by
  have h := selectedWeekdayIndex_eq_emod c d n
  have h0 : 0 ≤ (c + (n - d)) % 7 := Int.emod_nonneg _ (by norm_num)
  have h7 : (c + (n - d)) % 7 < 7 := Int.emod_lt_of_pos _ (by norm_num)
  unfold selectedWeekday jsArrayGet
  have hcond : 0 ≤ selectedWeekdayIndex c d n ∧
      (selectedWeekdayIndex c d n).toNat < weekdays.length := by
    constructor
    · omega
    · have : (selectedWeekdayIndex c d n).toNat < 7 := by omega
      simpa [weekdays]
  rw [dif_pos hcond]
  rfl

/-- C8 (code bug): with today = Sunday (`currentDay = 0`) and
`currentDayNumber = 10`, the daySelect option for day 1 computes
`(0 + 1 − 10) % 7 = −2` and reads `weekdays[−2]`, which is `undefined` —
not a weekday name — because this site omits the negative-remainder
adjustment; the selected-weekday effect on the same inputs adjusts
`−2` to `5` and correctly produces "Friday". -/
theorem daySelect_weekday_out_of_range :
    daySelectWeekdayIndex 0 10 1 = -2 ∧
    daySelectWeekday 0 10 1 = none ∧
    selectedWeekdayIndex 0 10 1 = 5 ∧
    selectedWeekday 0 10 1 = some "Friday" := by
  decide

end HardTracker
